import Mathlib

/-
  Verification of the bluebikes route-optimization engine.

  Shallow embedding of the Python source:
    - bluebikes/tsp/helpers.py           (haversine, matrices, formatting, persistence)
    - bluebikes/tsp/get_haversine_route.py, get_shortest_distance_route.py  (warm start)
    - make_distance_matrix.py            (network-derived matrix with retries)
    - parse_stations.py                  (export_tsp_route)

  Python floats are modelled as real numbers; CSV cell parsing (float(...)/int(...))
  is treated as out of scope and values are carried already-parsed.
-/

namespace Bluebikes

/-- A station as loaded by helpers.load_stations from stations.csv.
In the source the id travels as a CSV string and load_route parses it back with
int(...); parse_stations assigns ids 0,1,2,... in list order.  The id is
modelled as the integer it denotes. -/
structure Station where
  id : ℤ
  station_name : String
  lat : ℝ
  lng : ℝ

def defStation : Station := ⟨0, "", 0, 0⟩

/-- np.radians: degrees to radians. -/
noncomputable def radians (d : ℝ) : ℝ := d * Real.pi / 180

/-- helpers.haversine_distance: great-circle distance (km) via the haversine
formula, Earth radius 6371 km. -/
noncomputable def haversine_distance (lat1 lon1 lat2 lon2 : ℝ) : ℝ :=
  let lat1r := radians lat1
  let lon1r := radians lon1
  let lat2r := radians lat2
  let lon2r := radians lon2
  let dlat := lat2r - lat1r
  let dlon := lon2r - lon1r
  let a := Real.sin (dlat / 2) ^ 2 +
    Real.cos lat1r * Real.cos lat2r * Real.sin (dlon / 2) ^ 2
  let c := 2 * Real.arcsin (Real.sqrt a)
  let r : ℝ := 6371
  c * r

lemma haversine_distance_symm (lat1 lon1 lat2 lon2 : ℝ) :
    haversine_distance lat1 lon1 lat2 lon2 = haversine_distance lat2 lon2 lat1 lon1 := by
  unfold haversine_distance
  have h1 : radians lat1 - radians lat2 = -(radians lat2 - radians lat1) := by ring
  have h2 : radians lon1 - radians lon2 = -(radians lon2 - radians lon1) := by ring
  simp only [h1, h2, neg_div, Real.sin_neg, neg_sq]
  ring_nf

lemma haversine_distance_self (lat lon : ℝ) :
    haversine_distance lat lon lat lon = 0 := by
  unfold haversine_distance
  simp

lemma haversine_distance_nonneg (lat1 lon1 lat2 lon2 : ℝ) :
    0 ≤ haversine_distance lat1 lon1 lat2 lon2 := by
  unfold haversine_distance
  dsimp only
  refine mul_nonneg (mul_nonneg (by norm_num) ?_) (by norm_num)
  exact Real.arcsin_nonneg.mpr (Real.sqrt_nonneg _)

/-- helpers.get_haversine_distance_matrix: the double loop fills entry (i, j)
with the haversine distance when i < j, copies the already-filled transpose
entry matrix[j][i] (computed as the haversine distance of the pair (j, i))
when i > j, and leaves the np.zeros diagonal when i = j. -/
noncomputable def get_haversine_distance_matrix (stations : List Station) (i j : ℕ) : ℝ :=
  let si := stations.getD i defStation
  let sj := stations.getD j defStation
  if i < j then haversine_distance si.lat si.lng sj.lat sj.lng
  else if j < i then haversine_distance sj.lat sj.lng si.lat si.lng
  else 0

lemma get_haversine_distance_matrix_eq (stations : List Station) (i j : ℕ) :
    get_haversine_distance_matrix stations i j =
      haversine_distance (stations.getD i defStation).lat (stations.getD i defStation).lng
        (stations.getD j defStation).lat (stations.getD j defStation).lng := by
  unfold get_haversine_distance_matrix
  rcases lt_trichotomy i j with h | h | h
  · simp [h, not_lt.mpr h.le]
  · simp [h, haversine_distance_self]
  · simp [h, not_lt.mpr h.le, Nat.lt_asymm h, haversine_distance_symm]

/-- C5: the geometric distance-matrix builder is symmetric and zero on the
diagonal, and the underlying haversine distance satisfies d(a,b) = d(b,a)
for all point pairs and d(a,a) = 0 for every point. -/
theorem haversine_matrix_symm_and_zero_diag :
    (∀ (stations : List Station) (i j : ℕ),
        get_haversine_distance_matrix stations i j =
          get_haversine_distance_matrix stations j i) ∧
    (∀ (stations : List Station) (i : ℕ),
        get_haversine_distance_matrix stations i i = 0) ∧
    (∀ lat1 lon1 lat2 lon2 : ℝ,
        haversine_distance lat1 lon1 lat2 lon2 = haversine_distance lat2 lon2 lat1 lon1) ∧
    (∀ lat lon : ℝ, haversine_distance lat lon lat lon = 0) := by
  refine ⟨fun stations i j => ?_, fun stations i => ?_,
    haversine_distance_symm, haversine_distance_self⟩
  · rw [get_haversine_distance_matrix_eq, get_haversine_distance_matrix_eq,
      haversine_distance_symm]
  · simp [get_haversine_distance_matrix]

/-- Python round(x, 3): round to the nearest multiple of 0.001.  (Python uses
round-half-to-even on binary floats; the models here never hit an exact tie, so
round-to-nearest is used.) -/
noncomputable def round3 (x : ℝ) : ℝ := (round (x * 1000) : ℤ) / 1000

lemma round3_zero : round3 0 = 0 := by
  simp [round3]

lemma round3_mono {x y : ℝ} (h : x ≤ y) : round3 x ≤ round3 y := by
  unfold round3
  have hf : round (x * 1000) ≤ round (y * 1000) := by
    rw [round_eq, round_eq]
    exact Int.floor_le_floor (by linarith)
  have : ((round (x * 1000) : ℤ) : ℝ) ≤ ((round (y * 1000) : ℤ) : ℝ) := by exact_mod_cast hf
  linarith

lemma round3_le (x : ℝ) : round3 x ≤ x + 1 / 2000 := by
  unfold round3
  have h : |x * 1000 - round (x * 1000)| ≤ 1 / 2 := abs_sub_round (x * 1000)
  have h2 : ((round (x * 1000) : ℤ) : ℝ) ≤ x * 1000 + 1 / 2 := by
    have := abs_le.mp h
    linarith [this.1]
  linarith

lemma round3_ge (x : ℝ) : x - 1 / 2000 ≤ round3 x := by
  unfold round3
  have h : |x * 1000 - round (x * 1000)| ≤ 1 / 2 := abs_sub_round (x * 1000)
  have h2 : x * 1000 - 1 / 2 ≤ ((round (x * 1000) : ℤ) : ℝ) := by
    have := abs_le.mp h
    linarith [this.2]
  linarith

/-- A row of an annotated route table: what format_python_tsp_route appends to
csv_data and what load_route reads back from the persisted CSV
(columns stop_number, station_id, station_name, lat, lng, distance_to_next_km,
cumulative_distance_km). -/
structure RouteRow where
  stop_number : ℕ
  station_id : ℤ
  station_name : String
  lat : ℝ
  lng : ℝ
  distance_to_next_km : ℝ
  cumulative_distance_km : ℝ

def defRouteRow : RouteRow := ⟨0, 0, "", 0, 0, 0, 0⟩

/-- The body of the for-loop of helpers.format_python_tsp_route, from loop
index i with the running (unrounded) cumulative distance. -/
noncomputable def format_go (stations : List Station) (route : List ℕ) (i : ℕ)
    (cumulative : ℝ) : List RouteRow :=
  if h : i < route.length then
    let station := stations.getD (route.getD i 0) defStation
    let distance_to_next :=
      if i < route.length - 1 then
        let next_station := stations.getD (route.getD (i + 1) 0) defStation
        haversine_distance station.lat station.lng next_station.lat next_station.lng
      else 0
    { stop_number := i + 1
      station_id := station.id
      station_name := station.station_name
      lat := station.lat
      lng := station.lng
      distance_to_next_km := round3 distance_to_next
      cumulative_distance_km := round3 cumulative } ::
      format_go stations route (i + 1) (cumulative + distance_to_next)
  else []
termination_by route.length - i

/-- helpers.format_python_tsp_route: annotate a tour with per-leg haversine
distances and cumulative distance. -/
noncomputable def format_python_tsp_route (stations : List Station) (route : List ℕ) :
    List RouteRow :=
  format_go stations route 0 0

/-- The (unrounded) leg the formatter computes at loop index i. -/
noncomputable def format_leg (stations : List Station) (route : List ℕ) (i : ℕ) : ℝ :=
  if i < route.length - 1 then
    haversine_distance (stations.getD (route.getD i 0) defStation).lat
      (stations.getD (route.getD i 0) defStation).lng
      (stations.getD (route.getD (i + 1) 0) defStation).lat
      (stations.getD (route.getD (i + 1) 0) defStation).lng
  else 0

lemma format_leg_nonneg (stations : List Station) (route : List ℕ) (i : ℕ) :
    0 ≤ format_leg stations route i := by
  unfold format_leg
  split
  · exact haversine_distance_nonneg _ _ _ _
  · exact le_refl 0

lemma format_go_cons (stations : List Station) (route : List ℕ) (i : ℕ) (cumulative : ℝ)
    (h : i < route.length) :
    format_go stations route i cumulative =
      { stop_number := i + 1
        station_id := (stations.getD (route.getD i 0) defStation).id
        station_name := (stations.getD (route.getD i 0) defStation).station_name
        lat := (stations.getD (route.getD i 0) defStation).lat
        lng := (stations.getD (route.getD i 0) defStation).lng
        distance_to_next_km := round3 (format_leg stations route i)
        cumulative_distance_km := round3 cumulative } ::
        format_go stations route (i + 1) (cumulative + format_leg stations route i) := by
  rw [format_go]
  simp only [dif_pos h]
  unfold format_leg
  split <;> rfl

lemma format_go_nil (stations : List Station) (route : List ℕ) (i : ℕ) (cumulative : ℝ)
    (h : ¬ i < route.length) :
    format_go stations route i cumulative = [] := by
  rw [format_go]
  simp [h]

lemma getLast?_cons_of_ne_nil {α : Type} (a : α) {l : List α} (h : l ≠ []) :
    (a :: l).getLast? = l.getLast? := by
  cases l with
  | nil => exact absurd rfl h
  | cons b t => exact List.getLast?_cons_cons

lemma format_go_ne_nil (stations : List Station) (route : List ℕ) (i : ℕ) (cumulative : ℝ)
    (h : i < route.length) :
    format_go stations route i cumulative ≠ [] := by
  rw [format_go_cons stations route i cumulative h]
  exact List.cons_ne_nil _ _

lemma format_go_chain (stations : List Station) (route : List ℕ) :
    ∀ (n i : ℕ) (cumulative : ℝ), route.length - i = n →
      List.Chain' (· ≤ ·)
        ((format_go stations route i cumulative).map (·.cumulative_distance_km)) := by
  intro n
  induction n with
  | zero =>
    intro i cumulative hn
    rw [format_go_nil stations route i cumulative (by omega)]
    exact List.chain'_nil
  | succ n ih =>
    intro i cumulative hn
    have hi : i < route.length := by omega
    rw [format_go_cons stations route i cumulative hi, List.map_cons]
    rw [List.chain'_cons']
    refine ⟨?_, ih (i + 1) (cumulative + format_leg stations route i) (by omega)⟩
    intro y hy
    by_cases h1 : i + 1 < route.length
    · rw [format_go_cons stations route (i + 1) _ h1, List.map_cons, List.head?_cons,
        Option.mem_def, Option.some_inj] at hy
      subst hy
      exact round3_mono (by linarith [format_leg_nonneg stations route i])
    · rw [format_go_nil stations route (i + 1) _ h1] at hy
      simp at hy

/-- C9: in the annotated route produced by the formatter, the first stop's
cumulative distance is 0 and the cumulative-distance column is non-decreasing
in stop order. -/
theorem formatter_cumulative_monotone (stations : List Station) (route : List ℕ) :
    List.Chain' (· ≤ ·)
      ((format_python_tsp_route stations route).map (·.cumulative_distance_km)) ∧
    (route ≠ [] →
      ((format_python_tsp_route stations route).map (·.cumulative_distance_km)).head? =
        some 0) := by
  constructor
  · exact format_go_chain stations route (route.length - 0) 0 0 rfl
  · intro h
    have hi : 0 < route.length := List.length_pos.mpr h
    unfold format_python_tsp_route
    rw [format_go_cons stations route 0 0 hi, List.map_cons, List.head?_cons, round3_zero]

def eqStationA : Station := ⟨0, "A", 0, 0⟩
def eqStationB : Station := ⟨1, "B", 0, 1⟩
def eqStations : List Station := [eqStationA, eqStationB]

/-- C9 witness: the monotonicity statement instantiated on a concrete
two-station route. -/
theorem formatter_cumulative_monotone_witness :
    List.Chain' (· ≤ ·)
      ((format_python_tsp_route eqStations [0, 1]).map (·.cumulative_distance_km)) ∧
    ((format_python_tsp_route eqStations [0, 1]).map (·.cumulative_distance_km)).head? =
      some 0 :=
  ⟨(formatter_cumulative_monotone eqStations [0, 1]).1,
   (formatter_cumulative_monotone eqStations [0, 1]).2 (by decide)⟩

/-- Modelled from the spec: the optimizer's cost function.  The tour solver
itself (python_tsp) is an external library, not part of this repository;
section 4.2 defines its cost as the sum of matrix[tour[k]][tour[k+1]] for
consecutive stops plus the closing edge matrix[tour[N-1]][tour[0]], and 0 for
the empty tour. -/
noncomputable def tourCost (m : ℕ → ℕ → ℝ) (tour : List ℕ) : ℝ :=
  if tour.length = 0 then 0
  else (∑ k in Finset.range (tour.length - 1), m (tour.getD k 0) (tour.getD (k + 1) 0))
    + m (tour.getD (tour.length - 1) 0) (tour.getD 0 0)

/-- Sum of the formatter's (unrounded) per-leg distances: the open path over
the route, without the closing edge. -/
noncomputable def open_leg_sum (stations : List Station) (route : List ℕ) : ℝ :=
  ∑ k in Finset.range (route.length - 1), format_leg stations route k

/-- The haversine closing edge from the route's last stop back to its first. -/
noncomputable def closing_leg (stations : List Station) (route : List ℕ) : ℝ :=
  haversine_distance
    (stations.getD (route.getD (route.length - 1) 0) defStation).lat
    (stations.getD (route.getD (route.length - 1) 0) defStation).lng
    (stations.getD (route.getD 0 0) defStation).lat
    (stations.getD (route.getD 0 0) defStation).lng

lemma format_go_getLast (stations : List Station) (route : List ℕ) :
    ∀ (n i : ℕ) (c : ℝ), route.length - i = n + 1 →
      (format_go stations route i c).getLast? = some
        { stop_number := route.length
          station_id := (stations.getD (route.getD (route.length - 1) 0) defStation).id
          station_name :=
            (stations.getD (route.getD (route.length - 1) 0) defStation).station_name
          lat := (stations.getD (route.getD (route.length - 1) 0) defStation).lat
          lng := (stations.getD (route.getD (route.length - 1) 0) defStation).lng
          distance_to_next_km := 0
          cumulative_distance_km :=
            round3 (c + ∑ k in Finset.Ico i (route.length - 1),
              format_leg stations route k) } := by
  intro n
  induction n with
  | zero =>
    intro i c hn
    have hi : i < route.length := by omega
    have hieq : i = route.length - 1 := by omega
    rw [format_go_cons stations route i c hi,
      format_go_nil stations route (i + 1) _ (by omega)]
    have hleg : format_leg stations route i = 0 := by
      unfold format_leg
      rw [if_neg (by omega)]
    rw [List.getLast?_singleton, hleg, round3_zero]
    subst hieq
    have hstop : route.length - 1 + 1 = route.length := by omega
    rw [hstop, Finset.Ico_self, Finset.sum_empty, add_zero]
  | succ n ih =>
    intro i c hn
    have hi : i < route.length := by omega
    have hlt : i < route.length - 1 := by omega
    rw [format_go_cons stations route i c hi,
      getLast?_cons_of_ne_nil _ (format_go_ne_nil stations route (i + 1) _ (by omega)),
      ih (i + 1) (c + format_leg stations route i) (by omega)]
    have hsum : ∑ k in Finset.Ico i (route.length - 1), format_leg stations route k =
        format_leg stations route i +
          ∑ k in Finset.Ico (i + 1) (route.length - 1), format_leg stations route k :=
      Finset.sum_eq_sum_Ico_succ_bot hlt _
    rw [hsum]
    have harg : c + format_leg stations route i +
        ∑ k in Finset.Ico (i + 1) (route.length - 1), format_leg stations route k =
        c + (format_leg stations route i +
          ∑ k in Finset.Ico (i + 1) (route.length - 1), format_leg stations route k) := by
      ring
    rw [harg]

/-- C3 (amended): the formatter's accumulated leg distances form the open-path
sum, which equals the optimizer's cost MINUS the closing edge: the formatter's
last row carries cumulative distance round3(open sum) and a zero
distance-to-next, while the cost adds the closing edge on top of the open
sum. -/
theorem formatter_sum_vs_cost (stations : List Station) (route : List ℕ)
    (h : route ≠ []) :
    tourCost (get_haversine_distance_matrix stations) route
      = open_leg_sum stations route + closing_leg stations route ∧
    (format_python_tsp_route stations route).getLast?.map (·.cumulative_distance_km)
      = some (round3 (open_leg_sum stations route)) ∧
    (format_python_tsp_route stations route).getLast?.map (·.distance_to_next_km)
      = some 0 := by
  have hlen : 0 < route.length := List.length_pos.mpr h
  refine ⟨?_, ?_, ?_⟩
  · unfold tourCost
    rw [if_neg (by omega)]
    have hsum : ∑ k in Finset.range (route.length - 1),
        get_haversine_distance_matrix stations (route.getD k 0) (route.getD (k + 1) 0) =
        open_leg_sum stations route := by
      refine Finset.sum_congr rfl fun k hk => ?_
      have hk' : k < route.length - 1 := Finset.mem_range.mp hk
      rw [get_haversine_distance_matrix_eq]
      unfold format_leg
      rw [if_pos hk']
    rw [hsum, get_haversine_distance_matrix_eq]
    rfl
  · unfold format_python_tsp_route
    rw [format_go_getLast stations route (route.length - 1) 0 0 (by omega)]
    rw [Option.map_some', ← Finset.range_eq_Ico, zero_add]
    rfl
  · unfold format_python_tsp_route
    rw [format_go_getLast stations route (route.length - 1) 0 0 (by omega)]
    rfl

/-- C3 witness: the amended statement instantiated on a concrete two-station
route. -/
theorem formatter_sum_vs_cost_witness :
    tourCost (get_haversine_distance_matrix eqStations) [0, 1]
      = open_leg_sum eqStations [0, 1] + closing_leg eqStations [0, 1] ∧
    (format_python_tsp_route eqStations [0, 1]).getLast?.map (·.cumulative_distance_km)
      = some (round3 (open_leg_sum eqStations [0, 1])) ∧
    (format_python_tsp_route eqStations [0, 1]).getLast?.map (·.distance_to_next_km)
      = some 0 :=
  formatter_sum_vs_cost eqStations [0, 1] (by decide)

lemma haversine_equator_one_degree :
    haversine_distance 0 0 0 1 = 2 * (Real.pi / 360) * 6371 := by
  unfold haversine_distance radians
  dsimp only
  have h0 : (0 : ℝ) * Real.pi / 180 = 0 := by ring
  have h1 : (1 : ℝ) * Real.pi / 180 = Real.pi / 180 := by ring
  rw [h0, h1]
  have hsub : Real.pi / 180 - 0 = Real.pi / 180 := by ring
  have hzero : (0 : ℝ) - 0 = 0 := by ring
  rw [hsub, hzero]
  have hhalf : Real.pi / 180 / 2 = Real.pi / 360 := by ring
  rw [hhalf]
  have hzdiv : (0 : ℝ) / 2 = 0 := by ring
  rw [hzdiv, Real.sin_zero, Real.cos_zero]
  have hsimp : (0 : ℝ) ^ 2 + 1 * 1 * Real.sin (Real.pi / 360) ^ 2 =
      Real.sin (Real.pi / 360) ^ 2 := by ring
  rw [hsimp, Real.sqrt_sq_eq_abs]
  have hpos : 0 < Real.sin (Real.pi / 360) := by
    apply Real.sin_pos_of_pos_of_lt_pi
    · positivity
    · nlinarith [Real.pi_pos]
  rw [abs_of_pos hpos, Real.arcsin_sin (by nlinarith [Real.pi_pos]) (by nlinarith [Real.pi_pos])]

lemma haversine_equator_one_degree_gt : 106 < haversine_distance 0 0 0 1 := by
  rw [haversine_equator_one_degree]
  nlinarith [Real.pi_gt_three]

/-- C3 counterexample: on the concrete two-station instance the sum of the
formatter's per-leg distances differs from the optimizer's cost by more than
1 km (the closing edge is dropped), far beyond floating tolerance. -/
theorem formatter_sum_vs_cost_counterexample :
    1 < |tourCost (get_haversine_distance_matrix eqStations) [0, 1]
      - ((format_python_tsp_route eqStations [0, 1]).map (·.distance_to_next_km)).sum| := by
  have hm01 : get_haversine_distance_matrix eqStations 0 1 = haversine_distance 0 0 0 1 := by
    rw [get_haversine_distance_matrix_eq]
    rfl
  have hm10 : get_haversine_distance_matrix eqStations 1 0 = haversine_distance 0 0 0 1 := by
    rw [get_haversine_distance_matrix_eq]
    show haversine_distance 0 1 0 0 = haversine_distance 0 0 0 1
    exact haversine_distance_symm 0 1 0 0
  have hcost : tourCost (get_haversine_distance_matrix eqStations) [0, 1] =
      haversine_distance 0 0 0 1 + haversine_distance 0 0 0 1 := by
    unfold tourCost
    rw [if_neg (by decide)]
    show (∑ k in Finset.range 1,
        get_haversine_distance_matrix eqStations (([0, 1] : List ℕ).getD k 0)
          (([0, 1] : List ℕ).getD (k + 1) 0)) +
      get_haversine_distance_matrix eqStations 1 0 =
      haversine_distance 0 0 0 1 + haversine_distance 0 0 0 1
    rw [Finset.sum_range_one]
    show get_haversine_distance_matrix eqStations 0 1 +
      get_haversine_distance_matrix eqStations 1 0 = _
    rw [hm01, hm10]
  have hfmt : ((format_python_tsp_route eqStations [0, 1]).map (·.distance_to_next_km)).sum =
      round3 (haversine_distance 0 0 0 1) := by
    unfold format_python_tsp_route
    rw [format_go_cons eqStations [0, 1] 0 0 (by decide),
      format_go_cons eqStations [0, 1] 1 _ (by decide),
      format_go_nil eqStations [0, 1] 2 _ (by decide)]
    have hleg0 : format_leg eqStations [0, 1] 0 = haversine_distance 0 0 0 1 := by
      unfold format_leg
      rw [if_pos (by decide)]
      rfl
    have hleg1 : format_leg eqStations [0, 1] 1 = 0 := by
      unfold format_leg
      rw [if_neg (by decide)]
    rw [List.map_cons, List.map_cons, List.map_nil]
    show round3 (format_leg eqStations [0, 1] 0) +
      (round3 (format_leg eqStations [0, 1] 1) + 0) = _
    rw [hleg0, hleg1, round3_zero, add_zero, add_zero]
  rw [hcost, hfmt]
  have hgt := haversine_equator_one_degree_gt
  have hle := round3_le (haversine_distance 0 0 0 1)
  have h1 : 1 < haversine_distance 0 0 0 1 + haversine_distance 0 0 0 1 -
      round3 (haversine_distance 0 0 0 1) := by linarith
  exact lt_of_lt_of_le h1 (le_abs_self _)

/-- A station as parse_stations.py carries it: a [name, lat, lng] triple. -/
structure PStation where
  name : String
  lat : ℝ
  lng : ℝ

def defPStation : PStation := ⟨"", 0, 0⟩

def toPStation (s : Station) : PStation := ⟨s.station_name, s.lat, s.lng⟩

/-- A row of parse_stations.export_tsp_route's csv_data. -/
structure ExportRow where
  stop_number : ℕ
  station_name : String
  latitude : ℝ
  longitude : ℝ
  distance_to_next_km : ℝ
  cumulative_distance_km : ℝ

def defExportRow : ExportRow := ⟨0, "", 0, 0, 0, 0⟩

/-- The (unrounded) leg export_tsp_route computes at loop index i: haversine to
the next stop, or — at the last stop — the haversine distance back to the start
station. -/
noncomputable def export_leg (stations : List PStation) (route : List ℕ) (i : ℕ) : ℝ :=
  if i < route.length - 1 then
    haversine_distance (stations.getD (route.getD i 0) defPStation).lat
      (stations.getD (route.getD i 0) defPStation).lng
      (stations.getD (route.getD (i + 1) 0) defPStation).lat
      (stations.getD (route.getD (i + 1) 0) defPStation).lng
  else
    haversine_distance (stations.getD (route.getD i 0) defPStation).lat
      (stations.getD (route.getD i 0) defPStation).lng
      (stations.getD (route.getD 0 0) defPStation).lat
      (stations.getD (route.getD 0 0) defPStation).lng

/-- The body of the for-loop of parse_stations.export_tsp_route; also returns
the final value of the cumulative_distance variable (used afterwards by the
return-to-start row). -/
noncomputable def export_go (stations : List PStation) (route : List ℕ) (i : ℕ)
    (cumulative : ℝ) : List ExportRow × ℝ :=
  if h : i < route.length then
    let s := stations.getD (route.getD i 0) defPStation
    let rest := export_go stations route (i + 1) (cumulative + export_leg stations route i)
    ({ stop_number := i + 1
       station_name := s.name
       latitude := s.lat
       longitude := s.lng
       distance_to_next_km := round3 (export_leg stations route i)
       cumulative_distance_km := round3 cumulative } :: rest.1, rest.2)
  else ([], cumulative)
termination_by route.length - i

/-- parse_stations.export_tsp_route: annotate the tour with haversine leg
distances, the last stop carrying the distance back to the start, then append
an explicit return-to-start row.  total_distance is only printed. -/
noncomputable def export_tsp_route (stations : List PStation) (route : List ℕ)
    (total_distance : ℝ) : List ExportRow :=
  let rows := export_go stations route 0 0
  match route with
  | [] => rows.1
  | r0 :: _ =>
    rows.1 ++
      [{ stop_number := route.length + 1
         station_name := (stations.getD r0 defPStation).name ++ " (return to start)"
         latitude := (stations.getD r0 defPStation).lat
         longitude := (stations.getD r0 defPStation).lng
         distance_to_next_km := 0
         cumulative_distance_km := round3 rows.2 }]

lemma export_go_cons (stations : List PStation) (route : List ℕ) (i : ℕ) (cumulative : ℝ)
    (h : i < route.length) :
    export_go stations route i cumulative =
      ({ stop_number := i + 1
         station_name := (stations.getD (route.getD i 0) defPStation).name
         latitude := (stations.getD (route.getD i 0) defPStation).lat
         longitude := (stations.getD (route.getD i 0) defPStation).lng
         distance_to_next_km := round3 (export_leg stations route i)
         cumulative_distance_km := round3 cumulative } ::
           (export_go stations route (i + 1)
             (cumulative + export_leg stations route i)).1,
       (export_go stations route (i + 1)
         (cumulative + export_leg stations route i)).2) := by
  rw [export_go]
  simp only [dif_pos h]

lemma export_go_nil (stations : List PStation) (route : List ℕ) (i : ℕ) (cumulative : ℝ)
    (h : ¬ i < route.length) :
    export_go stations route i cumulative = ([], cumulative) := by
  rw [export_go]
  simp [h]

lemma export_go_fst_length (stations : List PStation) (route : List ℕ) :
    ∀ (n i : ℕ) (c : ℝ), route.length - i = n → (export_go stations route i c).1.length = n := by
  intro n
  induction n with
  | zero =>
    intro i c hn
    rw [export_go_nil stations route i c (by omega)]
    rfl
  | succ n ih =>
    intro i c hn
    rw [export_go_cons stations route i c (by omega)]
    simp only [List.length_cons]
    rw [ih (i + 1) _ (by omega)]

lemma export_go_getLast_dist (stations : List PStation) (route : List ℕ) :
    ∀ (n i : ℕ) (c : ℝ), route.length - i = n + 1 →
      ((export_go stations route i c).1.getLast?).map (·.distance_to_next_km) =
        some (round3 (export_leg stations route (route.length - 1))) := by
  intro n
  induction n with
  | zero =>
    intro i c hn
    have hieq : i = route.length - 1 := by omega
    rw [export_go_cons stations route i c (by omega),
      export_go_nil stations route (i + 1) _ (by omega)]
    rw [List.getLast?_singleton, Option.map_some', hieq]
  | succ n ih =>
    intro i c hn
    rw [export_go_cons stations route i c (by omega)]
    have hne : (export_go stations route (i + 1)
        (c + export_leg stations route i)).1 ≠ [] := by
      have := export_go_fst_length stations route (route.length - (i + 1)) (i + 1)
        (c + export_leg stations route i) rfl
      intro hc
      rw [hc] at this
      simp at this
      omega
    rw [getLast?_cons_of_ne_nil _ hne]
    exact ih (i + 1) _ (by omega)

lemma getD_of_getLast? {α : Type} (l : List α) (x d : α) (h : l.getLast? = some x) :
    l.getD (l.length - 1) d = x := by
  rw [List.getD_eq_getElem?_getD, ← List.getLast?_eq_getElem?, h]
  rfl

/-- C4 (amended): the two route-formatting operations do NOT share one
closing-leg convention.  For every station list and nonempty tour,
format_python_tsp_route writes 0 as the last stop's distance-to-next (open-path
display), while export_tsp_route writes the closing-leg haversine distance back
to the first stop there (closed-tour display, followed by an explicit
return-to-start row whose own distance-to-next is 0). -/
theorem closing_leg_conventions_differ (stations : List Station) (route : List ℕ)
    (total : ℝ) (h : route ≠ []) :
    (format_python_tsp_route stations route).getLast?.map (·.distance_to_next_km)
      = some 0 ∧
    ((export_tsp_route (stations.map toPStation) route total).getD (route.length - 1)
        defExportRow).distance_to_next_km
      = round3 (export_leg (stations.map toPStation) route (route.length - 1)) ∧
    (export_tsp_route (stations.map toPStation) route total).getLast?.map
        (·.distance_to_next_km) = some 0 := by
  have hlen : 0 < route.length := List.length_pos.mpr h
  obtain ⟨r0, rtl, hr⟩ : ∃ r0 rtl, route = r0 :: rtl := by
    cases route with
    | nil => exact absurd rfl h
    | cons a t => exact ⟨a, t, rfl⟩
  refine ⟨?_, ?_, ?_⟩
  · unfold format_python_tsp_route
    rw [format_go_getLast stations route (route.length - 1) 0 0 (by omega)]
    rfl
  · have hloop := export_go_getLast_dist (stations.map toPStation) route
      (route.length - 1) 0 0 (by omega)
    have hlooplen : (export_go (stations.map toPStation) route 0 0).1.length =
        route.length := export_go_fst_length _ _ route.length 0 0 (by omega)
    obtain ⟨lastRow, hlast, hdist⟩ : ∃ lr,
        (export_go (stations.map toPStation) route 0 0).1.getLast? = some lr ∧
        lr.distance_to_next_km =
          round3 (export_leg (stations.map toPStation) route (route.length - 1)) := by
      cases hcase : (export_go (stations.map toPStation) route 0 0).1.getLast? with
      | none => rw [hcase] at hloop; simp at hloop
      | some lr =>
        rw [hcase] at hloop
        exact ⟨lr, rfl, by simpa using hloop⟩
    unfold export_tsp_route
    rw [hr]
    dsimp only
    rw [← hr]
    rw [List.getD_append _ _ _ _ (by omega)]
    have : (export_go (stations.map toPStation) route 0 0).1.getD (route.length - 1)
        defExportRow = lastRow := by
      have hgl := getD_of_getLast? _ _ defExportRow hlast
      rw [hlooplen] at hgl
      exact hgl
    rw [this, hdist]
  · unfold export_tsp_route
    rw [hr]
    dsimp only
    rw [List.getLast?_append]
    rfl

/-- C4 witness: the amended statement instantiated on a concrete two-station
route. -/
theorem closing_leg_conventions_differ_witness :
    (format_python_tsp_route eqStations [0, 1]).getLast?.map (·.distance_to_next_km)
      = some 0 ∧
    ((export_tsp_route (eqStations.map toPStation) [0, 1] 0).getD 1
        defExportRow).distance_to_next_km
      = round3 (export_leg (eqStations.map toPStation) [0, 1] 1) ∧
    (export_tsp_route (eqStations.map toPStation) [0, 1] 0).getLast?.map
        (·.distance_to_next_km) = some 0 :=
  closing_leg_conventions_differ eqStations [0, 1] 0 (by decide)

/-- C4 counterexample: on a concrete two-station tour the two formatters
disagree about the last stop's distance-to-next field: format_python_tsp_route
writes 0 there while export_tsp_route writes the (nonzero) closing-leg
distance. -/
theorem closing_leg_conventions_differ_counterexample :
    ((format_python_tsp_route eqStations [0, 1]).getD 1 defRouteRow).distance_to_next_km ≠
    ((export_tsp_route (eqStations.map toPStation) [0, 1] 0).getD 1
        defExportRow).distance_to_next_km := by
  have hfmt : ((format_python_tsp_route eqStations [0, 1]).getD 1
      defRouteRow).distance_to_next_km = round3 0 := by
    unfold format_python_tsp_route
    rw [format_go_cons eqStations [0, 1] 0 0 (by decide),
      format_go_cons eqStations [0, 1] 1 _ (by decide),
      format_go_nil eqStations [0, 1] 2 _ (by decide)]
    show round3 (format_leg eqStations [0, 1] 1) = round3 0
    unfold format_leg
    rw [if_neg (by decide)]
  have hexp : ((export_tsp_route (eqStations.map toPStation) [0, 1] 0).getD 1
      defExportRow).distance_to_next_km = round3 (haversine_distance 0 0 0 1) := by
    unfold export_tsp_route
    dsimp only
    rw [export_go_cons (eqStations.map toPStation) [0, 1] 0 0 (by decide),
      export_go_cons (eqStations.map toPStation) [0, 1] 1 _ (by decide),
      export_go_nil (eqStations.map toPStation) [0, 1] 2 _ (by decide)]
    show round3 (export_leg (eqStations.map toPStation) [0, 1] 1) = _
    unfold export_leg
    rw [if_neg (by decide)]
    show round3 (haversine_distance 0 1 0 0) = _
    rw [haversine_distance_symm 0 1 0 0]
  rw [hfmt, hexp, round3_zero]
  have hgt := haversine_equator_one_degree_gt
  have hge := round3_ge (haversine_distance 0 0 0 1)
  intro hcontra
  have : (0 : ℝ) < round3 (haversine_distance 0 0 0 1) := by linarith
  linarith [this, hcontra.symm.le]

/-- A persisted distance/duration matrix CSV: a header row ("id" followed by
the station ids, modelled as the integers the cells denote) and one data row
per station, an id cell followed by the numeric cells (CSV float parsing is
out of scope; the values are carried as the numbers they denote). -/
structure MatrixFile where
  header : List ℤ
  rows : List (ℤ × List ℝ)

/-- helpers.load_distance_matrix: next(reader) discards the header row without
inspecting it, each remaining row drops its leading id cell, and every numeric
value is divided by 1000.  No comparison against the current stations happens
anywhere, so no mismatch error can be raised. -/
noncomputable def load_distance_matrix (file : MatrixFile) : List (List ℝ) :=
  file.rows.map (fun row => row.2.map (fun v => v / 1000))

/-- The current station registry's id sequence. -/
def station_ids (stations : List Station) : List ℤ := stations.map (·.id)

/-- C1 (amended): load_distance_matrix performs no header validation at all:
its result is identical for any two headers over the same data rows — so
loading succeeds whether or not the persisted header ids equal the current
StationRegistry's ids, and no DataMismatchError is ever raised — and it always
returns a matrix with one row per data row, each value divided by 1000. -/
theorem matrix_header_not_validated (h1 h2 : List ℤ) (rows : List (ℤ × List ℝ))
    (file : MatrixFile) :
    load_distance_matrix ⟨h1, rows⟩ = load_distance_matrix ⟨h2, rows⟩ ∧
    (load_distance_matrix file).length = file.rows.length ∧
    load_distance_matrix file = file.rows.map (fun row => row.2.map (fun v => v / 1000)) :=
  ⟨rfl, by simp [load_distance_matrix], rfl⟩

def mismatchHeaderFile : MatrixFile :=
  ⟨[7, 9], [(7, [0, 100]), (9, [200, 0])]⟩

/-- C1 counterexample: a persisted matrix whose header ids [7, 9] disagree with
the current station ids [0, 1] is still loaded into a matrix (meters scaled to
kilometers); no error is raised, refuting that load succeeds only on matching
headers. -/
theorem matrix_header_not_validated_counterexample :
    load_distance_matrix mismatchHeaderFile = [[0, 1 / 10], [1 / 5, 0]] ∧
    mismatchHeaderFile.header ≠ station_ids eqStations := by
  constructor
  · unfold load_distance_matrix mismatchHeaderFile
    norm_num
  · decide

/-- The warm-start line of get_haversine_route.main, get_shortest_distance_route.main
and local_search: x0 = [waypoint station_id for waypoint in last_route] if
last_route and len(last_route) == len(selected_stations) else None.
A missing route file gives last_route = None and an empty loaded route is
falsy; otherwise the RAW station-id sequence is offered whenever the lengths
match. -/
def warm_start_x0 : Option (List RouteRow) → List Station → Option (List ℤ)
  | none, _ => none
  | some [], _ => none
  | some (w :: ws), selected_stations =>
    if (w :: ws).length = selected_stations.length
    then some ((w :: ws).map (·.station_id))
    else none

/-- The claim's warm-start mapping, stated for comparison with the code: the
index in the current station list of each persisted stop's station id. -/
def spec_seed (r : List RouteRow) (selected_stations : List Station) : List ℕ :=
  r.map (fun w => selected_stations.findIdx (fun s => s.id == w.station_id))

lemma findIdx_of_positional_ids :
    ∀ (sel : List Station) (b k : ℕ),
      (∀ j (hj : j < sel.length), (sel.get ⟨j, hj⟩).id = ((b + j : ℕ) : ℤ)) →
      b ≤ k → k < b + sel.length →
      sel.findIdx (fun s => s.id == (k : ℤ)) = k - b := by
  intro sel
  induction sel with
  | nil =>
    intro b k _ hbk hkb
    simp at hkb
    omega
  | cons s tl ih =>
    intro b k hpos hbk hkb
    have hs : s.id = (b : ℤ) := by
      have := hpos 0 (by simp)
      simpa using this
    rw [List.findIdx_cons]
    by_cases hk : k = b
    · subst hk
      have : (s.id == (k : ℤ)) = true := by
        rw [beq_iff_eq, hs]
      rw [this]
      simp
    · have hne : (s.id == (k : ℤ)) = false := by
        rw [beq_eq_false_iff_ne, hs]
        intro hc
        exact hk (by exact_mod_cast hc.symm)
      rw [hne]
      have htl : tl.findIdx (fun s => s.id == (k : ℤ)) = k - (b + 1) := by
        refine ih (b + 1) k ?_ (by omega) ?_
        · intro j hj
          have := hpos (j + 1) (by simpa using Nat.succ_lt_succ hj)
          have harith : (b + (j + 1) : ℕ) = ((b + 1) + j : ℕ) := by omega
          rw [harith] at this
          exact this
        · have : (s :: tl).length = tl.length + 1 := by simp
          omega
      simp only [cond_false, htl]
      omega

/-- C2 (amended): the warm-start seed offered to the optimizer is the persisted
route's RAW station-id sequence — the code performs no lookup of each id's
index in the current station list.  The claimed index mapping coincides with
what the code offers only under the extra assumption that every current
station's id equals its position (which parse_stations' incremental id
assignment provides) and the persisted ids are all in range. -/
theorem warm_start_seed_is_raw_ids (sel : List Station) (r : List RouteRow)
    (h1 : r ≠ []) (h2 : r.length = sel.length) :
    warm_start_x0 (some r) sel = some (r.map (·.station_id)) ∧
    ((∀ j (hj : j < sel.length), (sel.get ⟨j, hj⟩).id = (j : ℤ)) →
     (∀ w ∈ r, ∃ k : ℕ, k < sel.length ∧ w.station_id = (k : ℤ)) →
     r.map (·.station_id) = (spec_seed r sel).map Int.ofNat) := by
  constructor
  · cases r with
    | nil => exact absurd rfl h1
    | cons w ws =>
      simp only [warm_start_x0]
      rw [if_pos h2]
  · intro hpos hr
    unfold spec_seed
    rw [List.map_map]
    refine List.map_congr_left fun w hw => ?_
    obtain ⟨k, hk, hid⟩ := hr w hw
    have hfind : sel.findIdx (fun s => s.id == (k : ℤ)) = k := by
      have := findIdx_of_positional_ids sel 0 k
        (by intro j hj; simpa using hpos j hj) (Nat.zero_le k) (by omega)
      simpa using this
    simp only [Function.comp_apply, hid, hfind]
    rfl

def wsStations : List Station := [⟨3, "A", 0, 0⟩, ⟨4, "B", 0, 1⟩]
def wsPriorRoute : List RouteRow := [⟨1, 4, "B", 0, 1, 0, 0⟩, ⟨2, 3, "A", 0, 0, 0, 0⟩]

/-- C2 counterexample: with current stations of ids [3, 4] and a persisted
route visiting ids [4, 3], the code offers the raw id sequence [4, 3] as the
seed, not the index sequence [1, 0] the claim prescribes. -/
theorem warm_start_seed_not_index_mapped_counterexample :
    warm_start_x0 (some wsPriorRoute) wsStations = some [4, 3] ∧
    (spec_seed wsPriorRoute wsStations).map Int.ofNat = [1, 0] ∧
    warm_start_x0 (some wsPriorRoute) wsStations ≠
      some ((spec_seed wsPriorRoute wsStations).map Int.ofNat) := by
  refine ⟨by decide, by decide, by decide⟩

def eqPriorRoute : List RouteRow := [⟨1, 1, "B", 0, 1, 0, 0⟩, ⟨2, 0, "A", 0, 0, 0, 0⟩]

/-- C2 witness: the amended statement instantiated on a concrete station list
with positional ids. -/
theorem warm_start_seed_is_raw_ids_witness :
    warm_start_x0 (some eqPriorRoute) eqStations = some (eqPriorRoute.map (·.station_id)) ∧
    ((∀ j (hj : j < eqStations.length), (eqStations.get ⟨j, hj⟩).id = (j : ℤ)) →
     (∀ w ∈ eqPriorRoute, ∃ k : ℕ, k < eqStations.length ∧ w.station_id = (k : ℤ)) →
     eqPriorRoute.map (·.station_id) = (spec_seed eqPriorRoute eqStations).map Int.ofNat) :=
  warm_start_seed_is_raw_ids eqStations eqPriorRoute (by simp [eqPriorRoute]) (by decide)

/-- Modelled from the spec: the tour solver is the external python_tsp library,
not part of this repository.  Per section 4.2, when no seed tour is supplied the
optimizer falls back to a default initial tour over all current stations
(identity ordering). -/
def setup_initial_tour (n : ℕ) (x0 : Option (List ℤ)) : List ℤ :=
  match x0 with
  | some tour => tour
  | none => (List.range n).map Int.ofNat

/-- C6: when the persisted route's stop count differs from the current station
count, no seed is offered (x0 = None, no exception, no truncation) and the
optimizer's initial tour is the generated identity tour over all current
stations, of full length. -/
theorem mismatched_warm_start_discarded (r : List RouteRow) (sel : List Station)
    (h : r.length ≠ sel.length) :
    warm_start_x0 (some r) sel = none ∧
    setup_initial_tour sel.length (warm_start_x0 (some r) sel) =
      (List.range sel.length).map Int.ofNat ∧
    (setup_initial_tour sel.length (warm_start_x0 (some r) sel)).length = sel.length := by
  have hx : warm_start_x0 (some r) sel = none := by
    cases r with
    | nil => rfl
    | cons w ws =>
      simp only [warm_start_x0]
      rw [if_neg h]
  refine ⟨hx, by rw [hx]; rfl, by rw [hx]; simp [setup_initial_tour]⟩

def fiveStopRoute : List RouteRow :=
  [⟨1, 0, "", 0, 0, 0, 0⟩, ⟨2, 1, "", 0, 0, 0, 0⟩, ⟨3, 2, "", 0, 0, 0, 0⟩,
   ⟨4, 3, "", 0, 0, 0, 0⟩, ⟨5, 4, "", 0, 0, 0, 0⟩]

def sevenStations : List Station :=
  [⟨0, "S0", 0, 0⟩, ⟨1, "S1", 0, 0⟩, ⟨2, "S2", 0, 0⟩, ⟨3, "S3", 0, 0⟩,
   ⟨4, "S4", 0, 0⟩, ⟨5, "S5", 0, 0⟩, ⟨6, "S6", 0, 0⟩]

/-- C6 witness: a 5-stop persisted route against 7 current stations yields no
seed and the identity fallback tour over all 7 stations. -/
theorem mismatched_warm_start_discarded_witness :
    warm_start_x0 (some fiveStopRoute) sevenStations = none ∧
    setup_initial_tour sevenStations.length (warm_start_x0 (some fiveStopRoute) sevenStations) =
      (List.range sevenStations.length).map Int.ofNat ∧
    (setup_initial_tour sevenStations.length
      (warm_start_x0 (some fiveStopRoute) sevenStations)).length = sevenStations.length :=
  mismatched_warm_start_discarded fiveStopRoute sevenStations (by decide)

/-- One OSRM request attempt inside make_distance_matrix.query_route: a
successful response whose routes list is nonempty (returning route[METRIC]),
a successful response without routes (the loop just continues), or an
exception (printed, then sleep(1) and retry). -/
inductive OsrmAttempt where
  | ok (v : ℝ)
  | noRoute
  | err

def attempt_value : OsrmAttempt → Option ℝ
  | .ok v => some v
  | .noRoute => none
  | .err => none

/-- make_distance_matrix.query_route: for attempt in range(retries) issue the
request, returning the first successful value; if no attempt in the bounded
budget succeeds, return None.  The attempt outcomes are the environment. -/
def query_route (attempts : ℕ → OsrmAttempt) (retries : ℕ) : Option ℝ :=
  ((List.range retries).map attempts).findSome? attempt_value

/-- make_distance_matrix.build_and_write_matrix: writes one row per station —
the station id followed by n entries; each row starts as [0.0] * n so the
skipped diagonal stays 0; every off-diagonal entry is query_route with the
default retries=3, and a fully failed entry is written as None while the loop
moves on to the remaining entries. -/
def build_and_write_matrix (stations : List Station)
    (attempts : ℕ → ℕ → ℕ → OsrmAttempt) : List (ℤ × List (Option ℝ)) :=
  (List.range stations.length).map (fun i =>
    ((stations.getD i defStation).id,
      (List.range stations.length).map (fun j =>
        if i = j then some 0 else query_route (attempts i j) 3)))

lemma getD_map_range {α : Type} (n : ℕ) (f : ℕ → α) (i : ℕ) (h : i < n) (d : α) :
    ((List.range n).map f).getD i d = f i := by
  rw [List.getD_eq_getElem?_getD, List.getElem?_map, List.getElem?_range h]
  rfl

/-- C7: each per-pair request is tried at most 3 times (the result only depends
on the first three attempt outcomes); when every attempt fails the single entry
is marked unavailable (None); and the build always completes the whole matrix —
n rows of n entries each — regardless of the failing pair. -/
theorem per_entry_retry_and_degrade (stations : List Station)
    (attempts : ℕ → ℕ → ℕ → OsrmAttempt) (i j : ℕ)
    (hi : i < stations.length) (hj : j < stations.length) (hij : i ≠ j)
    (hfail : ∀ k, k < 3 → attempt_value (attempts i j k) = none) :
    ((build_and_write_matrix stations attempts).getD i (0, [])).2.getD j (some 0) = none ∧
    (build_and_write_matrix stations attempts).length = stations.length ∧
    (∀ row ∈ build_and_write_matrix stations attempts, row.2.length = stations.length) ∧
    (∀ f g : ℕ → OsrmAttempt, (∀ k, k < 3 → f k = g k) →
      query_route f 3 = query_route g 3) := by
  refine ⟨?_, ?_, ?_, ?_⟩
  · unfold build_and_write_matrix
    rw [getD_map_range _ _ i hi]
    dsimp only
    rw [getD_map_range _ _ j hj, if_neg hij]
    unfold query_route
    refine List.findSome?_eq_none_iff.mpr fun x hx => ?_
    obtain ⟨k, hk, hxk⟩ := List.mem_map.mp hx
    rw [← hxk]
    exact hfail k (List.mem_range.mp hk)
  · unfold build_and_write_matrix
    rw [List.length_map, List.length_range]
  · intro row hrow
    obtain ⟨k, _, hk⟩ := List.mem_map.mp hrow
    rw [← hk]
    dsimp only
    rw [List.length_map, List.length_range]
  · intro f g hfg
    unfold query_route
    have : (List.range 3).map f = (List.range 3).map g :=
      List.map_congr_left fun k hk => hfg k (List.mem_range.mp hk)
    rw [this]

def allFailAttempts : ℕ → ℕ → ℕ → OsrmAttempt := fun _ _ _ => OsrmAttempt.err

/-- C7 witness: with every attempt for the pair (0, 1) failing, entry (0, 1) is
None while the build still yields the full 2 by 2 structure. -/
theorem per_entry_retry_and_degrade_witness :
    ((build_and_write_matrix eqStations allFailAttempts).getD 0 (0, [])).2.getD 1 (some 0)
      = none ∧
    (build_and_write_matrix eqStations allFailAttempts).length = eqStations.length ∧
    (∀ row ∈ build_and_write_matrix eqStations allFailAttempts,
      row.2.length = eqStations.length) ∧
    (∀ f g : ℕ → OsrmAttempt, (∀ k, k < 3 → f k = g k) →
      query_route f 3 = query_route g 3) :=
  per_entry_retry_and_degrade eqStations allFailAttempts 0 1 (by decide) (by decide)
    (by decide) (fun _ _ => rfl)

/-- The fieldnames list of helpers.write_route_to_csv. -/
def route_fieldnames : List String :=
  ["stop_number", "station_id", "station_name", "lat", "lng",
   "distance_to_next_km", "cumulative_distance_km"]

/-- The CSV file produced by helpers.write_route_to_csv: a header row and the
data rows. -/
structure WrittenRouteFile where
  header : List String
  rows : List RouteRow

/-- helpers.write_route_to_csv: inside the with-block the DictWriter writes the
header row and then one row per waypoint, and leaving the block closes the
file; only AFTER that does the summary print read route[-1], which raises
IndexError for an empty route.  Modelled as the pair (written file, summary
total); summary None is the IndexError raised after the write completed. -/
def write_route_to_csv (route : List RouteRow) : WrittenRouteFile × Option ℝ :=
  (⟨route_fieldnames, route⟩, route.getLast?.map (·.cumulative_distance_km))

/-- C10 (amended): write_route_to_csv always writes a header row followed by
exactly one row per stop — also for the empty route, where the header-only
table is written first and THEN the route[-1] read raises an index error; for
every non-empty route the summary reports the last row's cumulative
distance. -/
theorem write_route_requires_nonempty (route : List RouteRow) :
    (write_route_to_csv route).1.header = route_fieldnames ∧
    (write_route_to_csv route).1.rows = route ∧
    (write_route_to_csv route).1.rows.length = route.length ∧
    (route = [] → (write_route_to_csv route).2 = none) ∧
    (∀ lastRow, route.getLast? = some lastRow →
      (write_route_to_csv route).2 = some lastRow.cumulative_distance_km) := by
  refine ⟨rfl, rfl, rfl, fun h => ?_, fun lastRow h => ?_⟩
  · subst h
    rfl
  · unfold write_route_to_csv
    rw [h]
    rfl

/-- C10 witness: the empty route yields the IndexError summary; a one-stop
route yields its own cumulative distance as summary. -/
theorem write_route_requires_nonempty_witness :
    (write_route_to_csv []).2 = none ∧
    (write_route_to_csv [defRouteRow]).2 = some defRouteRow.cumulative_distance_km :=
  ⟨(write_route_requires_nonempty []).2.2.2.1 rfl,
   (write_route_requires_nonempty [defRouteRow]).2.2.2.2 defRouteRow rfl⟩

/-- C10 counterexample: on the empty route the write is NOT skipped — the
header-only table is written (the with-block completes) and only afterwards
does reading route[-1] fail; so "raises instead of writing an empty table"
mis-describes the write. -/
theorem write_route_empty_writes_then_raises :
    (write_route_to_csv []).1 = ⟨route_fieldnames, []⟩ ∧
    (write_route_to_csv []).2 = none :=
  ⟨rfl, rfl⟩

/-- State of the simulated-annealing solver: current tour, its cost, and the
temperature. -/
structure SAState where
  x : List ℕ
  fx : ℝ
  temp : ℝ

/-- Modelled from the spec: the tour solver (python_tsp's
solve_tsp_simulated_annealing) is an external library, not part of this
repository.  Section 4.2: one annealing step proposes a neighboring tour,
always accepts an improving move, accepts a worsening move when the random
draw falls below exp(-(new cost - current cost) / temperature), and the
temperature decays geometrically by the cooling rate alpha.  A proposal is a
pair (neighbor tour, random draw); the proposal stream is the seedable random
source. -/
noncomputable def sa_step (m : ℕ → ℕ → ℝ) (alpha : ℝ) (s : SAState)
    (p : List ℕ × ℝ) : SAState :=
  let fn := tourCost m p.1
  if fn < s.fx ∨ p.2 < Real.exp (-(fn - s.fx) / s.temp)
  then ⟨p.1, fn, alpha * s.temp⟩
  else ⟨s.x, s.fx, alpha * s.temp⟩

/-- Modelled from the spec: running the annealing loop from the seed tour x0,
whose cost is evaluated first (the warm start initializes the state), over a
finite proposal stream. -/
noncomputable def solve_tsp_simulated_annealing (m : ℕ → ℕ → ℝ) (alpha temp0 : ℝ)
    (x0 : List ℕ) (proposals : List (List ℕ × ℝ)) : SAState :=
  proposals.foldl (sa_step m alpha) ⟨x0, tourCost m x0, temp0⟩

lemma sa_step_fx_le (m : ℕ → ℕ → ℝ) (alpha : ℝ) (s : SAState) (p : List ℕ × ℝ)
    (h_temp : 0 < s.temp) (h_draw : 1 ≤ p.2) :
    (sa_step m alpha s p).fx ≤ s.fx := by
  unfold sa_step
  dsimp only
  split
  case isTrue h =>
    by_cases hlt : tourCost m p.1 < s.fx
    · exact le_of_lt hlt
    · exfalso
      have hfx : s.fx ≤ tourCost m p.1 := not_lt.mp hlt
      have hexp : Real.exp (-(tourCost m p.1 - s.fx) / s.temp) ≤ 1 := by
        calc Real.exp (-(tourCost m p.1 - s.fx) / s.temp) ≤ Real.exp 0 :=
              Real.exp_le_exp.mpr
                (div_nonpos_of_nonpos_of_nonneg (by linarith) (le_of_lt h_temp))
          _ = 1 := Real.exp_zero
      rcases h with h | h
      · exact hlt h
      · linarith
  case isFalse => exact le_refl s.fx

lemma sa_step_temp_pos (m : ℕ → ℕ → ℝ) (alpha : ℝ) (s : SAState) (p : List ℕ × ℝ)
    (h_temp : 0 < s.temp) (h_alpha : 0 < alpha) :
    0 < (sa_step m alpha s p).temp := by
  unfold sa_step
  dsimp only
  split <;> exact mul_pos h_alpha h_temp

lemma sa_fold_fx_le (m : ℕ → ℕ → ℝ) (alpha : ℝ) (h_alpha : 0 < alpha) :
    ∀ (ps : List (List ℕ × ℝ)) (s : SAState), 0 < s.temp →
      (∀ p ∈ ps, 1 ≤ p.2) → (ps.foldl (sa_step m alpha) s).fx ≤ s.fx := by
  intro ps
  induction ps with
  | nil =>
    intro s _ _
    exact le_refl s.fx
  | cons p tl ih =>
    intro s hst hps
    rw [List.foldl_cons]
    have h1 : (sa_step m alpha s p).fx ≤ s.fx :=
      sa_step_fx_le m alpha s p hst (hps p (List.mem_cons_self p tl))
    have h2 : (tl.foldl (sa_step m alpha) (sa_step m alpha s p)).fx ≤
        (sa_step m alpha s p).fx :=
      ih (sa_step m alpha s p) (sa_step_temp_pos m alpha s p hst h_alpha)
        (fun q hq => hps q (List.mem_cons_of_mem p hq))
    linarith

/-- C8 (amended): the re-run does start from the prior cost (the seed tour is
evaluated first), and its final cost cannot exceed the prior cost as long as no
worsening proposal is accepted — formally, whenever every random draw is at or
above the acceptance threshold's upper bound 1.  Unconditional non-regression
fails because simulated annealing accepts worsening moves with positive
probability and returns the current (not best-seen) tour. -/
theorem warm_start_non_regression_conditional (m : ℕ → ℕ → ℝ) (alpha temp0 : ℝ)
    (x0 : List ℕ) (proposals : List (List ℕ × ℝ))
    (h_temp : 0 < temp0) (h_alpha : 0 < alpha)
    (h_draws : ∀ p ∈ proposals, 1 ≤ p.2) :
    (solve_tsp_simulated_annealing m alpha temp0 x0 proposals).fx ≤ tourCost m x0 :=
  sa_fold_fx_le m alpha h_alpha proposals ⟨x0, tourCost m x0, temp0⟩ h_temp h_draws

/-- A concrete asymmetric 3-station cost matrix. -/
def m3 : ℕ → ℕ → ℝ
  | 0, 1 => 1
  | 0, 2 => 5
  | 1, 0 => 2
  | 1, 2 => 3
  | 2, 0 => 4
  | 2, 1 => 6
  | _, _ => 0

lemma tourCost_m3_012 : tourCost m3 [0, 1, 2] = 8 := by
  unfold tourCost
  rw [if_neg (by decide)]
  show (∑ k in Finset.range 2,
      m3 (([0, 1, 2] : List ℕ).getD k 0) (([0, 1, 2] : List ℕ).getD (k + 1) 0)) +
    m3 2 0 = 8
  rw [Finset.sum_range_succ, Finset.sum_range_one]
  show m3 0 1 + m3 1 2 + m3 2 0 = 8
  norm_num [m3]

lemma tourCost_m3_021 : tourCost m3 [0, 2, 1] = 13 := by
  unfold tourCost
  rw [if_neg (by decide)]
  show (∑ k in Finset.range 2,
      m3 (([0, 2, 1] : List ℕ).getD k 0) (([0, 2, 1] : List ℕ).getD (k + 1) 0)) +
    m3 1 0 = 13
  rw [Finset.sum_range_succ, Finset.sum_range_one]
  show m3 0 2 + m3 2 1 + m3 1 0 = 13
  norm_num [m3]

/-- C8 witness: the conditional statement instantiated on the concrete matrix,
seeding with the prior tour [0,1,2] and one rejected worsening proposal. -/
theorem warm_start_non_regression_conditional_witness :
    (solve_tsp_simulated_annealing m3 (95 / 100) 10 [0, 1, 2] [([0, 2, 1], 1)]).fx ≤
      tourCost m3 [0, 1, 2] :=
  warm_start_non_regression_conditional m3 (95 / 100) 10 [0, 1, 2] [([0, 2, 1], 1)]
    (by norm_num) (by norm_num)
    (by
      intro p hp
      rw [List.mem_singleton] at hp
      subst hp
      norm_num)

/-- C8 counterexample: re-running the solver on the unchanged matrix and
parameters, seeded with its own prior output [0,1,2] of cost 8, can return a
tour of cost 13 > 8: the acceptance test for a worsening proposal passes with
positive probability (any draw below exp(-delta/T) > 0), so cost ≤ prior cost
is not an invariant. -/
theorem warm_start_non_regression_counterexample :
    tourCost m3 [0, 1, 2] <
      (solve_tsp_simulated_annealing m3 (95 / 100) 10 [0, 1, 2] [([0, 2, 1], 0)]).fx := by
  unfold solve_tsp_simulated_annealing
  rw [List.foldl_cons, List.foldl_nil]
  unfold sa_step
  dsimp only
  rw [tourCost_m3_021, tourCost_m3_012]
  rw [if_pos (Or.inr (Real.exp_pos _))]
  norm_num

end Bluebikes
